import Mathlib

/-!
Verification development for the query-orchestration core of the
ConversaBI JavaScript SDK.  The definitions below are shallow embeddings,
translated clause by clause from the TypeScript sources:

* src/core/CacheManager.ts        (response cache: TTL + LRU bookkeeping)
* src/core/NLPEngine.ts           (intent, entities, complexity, insights)
* src/core/DataConnectorManager.ts (source routing, fan-out, aggregation)
* src/core/ConversaSDK.ts         (cache key generation)

JavaScript machine integers are modelled as Nat (all quantities involved
are non-negative timestamps, counts and sizes), the wall clock reading
is threaded as an explicit argument, a JS Map is modelled as an
association list with
insertion-order semantics (replace in place on existing key, append on
new key), and a call that may throw is modelled as Except.
-/

set_option maxHeartbeats 1000000

namespace ConversaBI

/-! ### CacheManager (src/core/CacheManager.ts) -/

/-- Entry of the response cache, from the CacheEntry record of
CacheManager.ts: payload, absolute expiry time, last access time for the
LRU bookkeeping and the key under which the entry is stored. -/
structure CEntry (α : Type) where
  data : α
  expiresAt : Nat
  lastAccessed : Nat
  key : String
deriving Repr, DecidableEq

/-- A JS Map from String keys to cache entries, as an insertion-ordered
association list. -/
abbrev CMap (α : Type) := List (String × CEntry α)

/-- Lookup in a JS Map: first (and, for reachable maps, only) binding of
the key. -/
def mapGet {α : Type} : CMap α → String → Option (CEntry α)
  | [], _ => none
  | p :: rest, k => if p.1 = k then some p.2 else mapGet rest k

/-- Write to a JS Map: an existing key is overwritten in place, a new key
is appended at the end (insertion order). -/
def mapSet {α : Type} : CMap α → String → CEntry α → CMap α
  | [], k, v => [(k, v)]
  | p :: rest, k, v => if p.1 = k then (k, v) :: rest else p :: mapSet rest k v

/-- Deletion from a JS Map. -/
def mapDelete {α : Type} : CMap α → String → CMap α
  | [], _ => []
  | p :: rest, k => if p.1 = k then mapDelete rest k else p :: mapDelete rest k

/-- State of a CacheManager instance: the backing map plus the three
configuration fields of the class. -/
structure CacheManager (α : Type) where
  cache : CMap α
  enabled : Bool
  defaultTimeout : Nat
  maxSize : Nat
deriving Repr, DecidableEq

/-- The CacheManager constructor: empty map, caller-supplied enabled flag
and default timeout, and the hard-coded maximum of 1000 entries. -/
def CacheManager.init {α : Type} (enabled : Bool) (timeout : Nat) : CacheManager α :=
  ⟨[], enabled, timeout, 1000⟩

/-- CacheManager.get, with the current clock value passed explicitly.
Returns the looked-up value (null modelled as none) together with the
successor state.  An expired entry (strictly past its expiry time) is
deleted and reported absent; a hit refreshes lastAccessed in place. -/
def CacheManager.get {α : Type} (m : CacheManager α) (now : Nat) (key : String) :
    Option α × CacheManager α :=
  if m.enabled = false then (none, m)
  else
    match mapGet m.cache key with
    | none => (none, m)
    | some e =>
      if e.expiresAt < now then (none, { m with cache := mapDelete m.cache key })
      else (some e.data, { m with cache := mapSet m.cache key { e with lastAccessed := now } })

/-- One step of the loop body of CacheManager.evictLRU: the running
(lruKey, lruTime) pair is replaced whenever the entry under inspection
has a strictly smaller lastAccessed. -/
def lruStep {α : Type} (acc : String × Nat) (p : String × CEntry α) : String × Nat :=
  if p.2.lastAccessed < acc.2 then (p.1, p.2.lastAccessed) else acc

/-- CacheManager.evictLRU: scan for the least recently accessed entry,
starting from the accumulator (empty-string key, current time), and delete
the key found if it is a non-empty string. -/
def CacheManager.evictLRU {α : Type} (m : CacheManager α) (now : Nat) : CacheManager α :=
  if m.cache.isEmpty then m
  else
    let lru := m.cache.foldl lruStep ("", now)
    if lru.1 = "" then m else { m with cache := mapDelete m.cache lru.1 }

/-- The JS expression (timeout or-else this.defaultTimeout): an absent or
zero timeout falls back to the default (0 is falsy in JS). -/
def orDefaultTimeout (t : Option Nat) (d : Nat) : Nat :=
  match t with
  | none => d
  | some v => if v = 0 then d else v

/-- CacheManager.set: when the map has reached maxSize, first run the LRU
eviction, then insert the fresh entry with expiry now + timeout. -/
def CacheManager.set {α : Type} (m : CacheManager α) (now : Nat) (key : String)
    (data : α) (timeout : Option Nat) : CacheManager α :=
  if m.enabled = false then m
  else
    let m₁ := if m.maxSize ≤ m.cache.length then m.evictLRU now else m
    let expiresAt := now + orDefaultTimeout timeout m.defaultTimeout
    { m₁ with cache := mapSet m₁.cache key ⟨data, expiresAt, now, key⟩ }

/-- CacheManager.cleanup: collect the keys of all entries strictly past
their expiry and delete them; on a map with pairwise-distinct keys this is
exactly keeping the non-expired bindings in order. -/
def CacheManager.cleanup {α : Type} (m : CacheManager α) (now : Nat) : CacheManager α :=
  { m with cache := m.cache.filter (fun p => ! decide (p.2.expiresAt < now)) }

/-! ### NLPEngine (src/core/NLPEngine.ts) -/

/-- Substring test on character lists: some suffix of the haystack starts
with the needle.  This is JS String.includes. -/
def strContainsAux (needle : List Char) : List Char → Bool
  | [] => needle.isEmpty
  | c :: rest => needle.isPrefixOf (c :: rest) || strContainsAux needle rest

/-- JS String.includes on strings. -/
def strContains (hay needle : String) : Bool :=
  strContainsAux needle.data hay.data

/-- NLPEngine.matchesPattern: the text contains at least one of the
pattern strings. -/
def matchesPattern (text : String) (patterns : List String) : Bool :=
  patterns.any (fun pattern => strContains text pattern)

/-- JS String.toLowerCase restricted to the ASCII inputs exercised here:
character-wise lower-casing. -/
def jsToLower (s : String) : String :=
  ⟨s.data.map Char.toLower⟩

/-- The five intent categories of NLPEngine (type QueryIntent). -/
inductive QueryIntent where
  | retrieve | compare | trend | explain | predict
deriving Repr, DecidableEq

/-- NLPEngine.extractIntent: lower-case the query and test the keyword
sets in the fixed priority order of the if-else chain, defaulting to
retrieve. -/
def extractIntent (query : String) : QueryIntent :=
  let queryLower := jsToLower query
  if matchesPattern queryLower ["what", "show", "list", "get"] then .retrieve
  else if matchesPattern queryLower ["compare", "vs", "versus", "difference"] then .compare
  else if matchesPattern queryLower ["trend", "over time", "growth", "change"] then .trend
  else if matchesPattern queryLower ["why", "reason", "cause", "because"] then .explain
  else if matchesPattern queryLower ["predict", "forecast", "future", "next"] then .predict
  else .retrieve

/-- An extracted entity (type QueryEntity): kind tag, matched value and a
confidence constant.  Every confidence constant in the source is an exact
multiple of 0.1, so confidences are modelled in tenths: the source value
0.9 is the model value 9, and 0.8 is 8. -/
structure QueryEntity where
  type : String
  value : String
  confidence : Nat
deriving Repr, DecidableEq

/-- The business-context dictionary supplied to the engine at
construction time (interface BusinessContext): optional extra terminology
and optional extra tracked metrics. -/
structure BusinessContext where
  terminology : Option (List (String × String))
  metrics : Option (List String)
deriving Repr, DecidableEq

/-- The base business terms of NLPEngine.getBusinessTerms, in object
literal order: term, kind. -/
def baseTerms : List (String × String) :=
  [("customer", "entity"), ("product", "entity"), ("order", "entity"),
   ("revenue", "metric"), ("sales", "metric"), ("profit", "metric"), ("cost", "metric")]

/-- JS object spread of two string-keyed records: keys of the second
record override in place, fresh keys are appended. -/
def spreadMerge (base extra : List (String × String)) : List (String × String) :=
  base.map (fun p =>
    match extra.find? (fun q => q.1 = p.1) with
    | some q => (p.1, q.2)
    | none => p) ++
  extra.filter (fun q => ! base.any (fun p => p.1 = q.1))

/-- NLPEngine.getBusinessTerms: the base terms, merged with the
business-context terminology when one is configured. -/
def getBusinessTerms (ctx : Option BusinessContext) : List (String × String) :=
  match ctx with
  | some c =>
    match c.terminology with
    | some terms => spreadMerge baseTerms terms
    | none => baseTerms
  | none => baseTerms

/-- NLPEngine.getMetrics: the base tracked metrics, extended by the
business-context metric list when one is configured. -/
def getMetrics (ctx : Option BusinessContext) : List String :=
  let baseMetrics := ["revenue", "sales", "profit", "cost", "conversion", "traffic"]
  match ctx with
  | some c =>
    match c.metrics with
    | some ms => baseMetrics ++ ms
    | none => baseMetrics
  | none => baseMetrics

/-- The whitespace class of the JS regex escape backslash-s, restricted to
the ASCII range. -/
def jsIsSpace (c : Char) : Bool :=
  c = ' ' || c = '\t' || c = '\n' || c = '\r' || c = '\x0b' || c = '\x0c'

/-- Case-insensitive literal matcher: consume the given lowercase literal
from the front of the input, returning the consumed original characters
and the remainder. -/
def matchCI : List Char → List Char → Option (List Char × List Char)
  | [], s => some ([], s)
  | _ :: _, [] => none
  | l :: ls, c :: cs =>
    if c.toLower = l then (matchCI ls cs).map (fun pr => (c :: pr.1, pr.2)) else none

/-- Greedy one-or-more character-class matcher, as in the regex
quantifier plus: fails when no leading character belongs to the class. -/
def takeWhile1 (p : Char → Bool) (s : List Char) : Option (List Char × List Char) :=
  let taken := s.takeWhile p
  if taken.isEmpty then none else some (taken, s.dropWhile p)

/-- The first regex of NLPEngine.extractTimeEntities, matched at the head
of the input: last, whitespace, digits, whitespace, day, optional s
(case-insensitive).  Returns the matched characters. -/
def tryLastNDays (s : List Char) : Option (List Char) := do
  let (m1, r1) ← matchCI ['l', 'a', 's', 't'] s
  let (w1, r2) ← takeWhile1 jsIsSpace r1
  let (d, r3) ← takeWhile1 Char.isDigit r2
  let (w2, r4) ← takeWhile1 jsIsSpace r3
  let (m2, r5) ← matchCI ['d', 'a', 'y'] r4
  match r5 with
  | c :: _ =>
    if c.toLower = 's' then some (m1 ++ w1 ++ d ++ w2 ++ m2 ++ [c])
    else some (m1 ++ w1 ++ d ++ w2 ++ m2)
  | [] => some (m1 ++ w1 ++ d ++ w2 ++ m2)

/-- The second regex of NLPEngine.extractTimeEntities, at the head of the
input: this, whitespace, then week, month or year (case-insensitive). -/
def tryThisPeriod (s : List Char) : Option (List Char) := do
  let (m1, r1) ← matchCI ['t', 'h', 'i', 's'] s
  let (w1, r2) ← takeWhile1 jsIsSpace r1
  match matchCI ['w', 'e', 'e', 'k'] r2 with
  | some (m2, _) => some (m1 ++ w1 ++ m2)
  | none =>
    match matchCI ['m', 'o', 'n', 't', 'h'] r2 with
    | some (m2, _) => some (m1 ++ w1 ++ m2)
    | none => (matchCI ['y', 'e', 'a', 'r'] r2).map (fun pr => m1 ++ w1 ++ pr.1)

/-- The third regex of NLPEngine.extractTimeEntities, at the head of the
input: four consecutive decimal digits. -/
def tryYear (s : List Char) : Option (List Char) :=
  match s with
  | a :: b :: c :: d :: _ =>
    if a.isDigit && b.isDigit && c.isDigit && d.isDigit then some [a, b, c, d] else none
  | _ => none

/-- Left-to-right regex scan: the first position at which the head
matcher succeeds wins, as for JS String.match without the global flag. -/
def scanFirst (try1 : List Char → Option (List Char)) : List Char → Option (List Char)
  | [] => none
  | c :: rest =>
    match try1 (c :: rest) with
    | some m => some m
    | none => scanFirst try1 rest

/-- NLPEngine.extractTimeEntities: the three time regexes, each
contributing one entity with the full matched text at confidence 0.9 when
it matches the original (not lower-cased) query. -/
def extractTimeEntities (query : String) : List QueryEntity :=
  let pats : List ((List Char → Option (List Char)) × String) :=
    [(tryLastNDays, "time_range"), (tryThisPeriod, "time_period"), (tryYear, "year")]
  pats.filterMap (fun pr =>
    (scanFirst pr.1 query.data).map
      (fun m => ⟨pr.2, String.mk m, 9⟩))

/-- NLPEngine.extractEntities: business-term matches at confidence 0.9,
then tracked-metric matches at 0.8, then time entities, appended in that
order without deduplication. -/
def extractEntities (query : String) (ctx : Option BusinessContext) : List QueryEntity :=
  let queryLower := jsToLower query
  let biz := (getBusinessTerms ctx).filterMap (fun p =>
    if strContains queryLower p.1 then some (⟨p.2, p.1, 9⟩ : QueryEntity) else none)
  let mets := (getMetrics ctx).filterMap (fun metric =>
    if strContains queryLower metric then
      some (⟨"metric", metric, 8⟩ : QueryEntity)
    else none)
  biz ++ mets ++ extractTimeEntities query

/-- NLPEngine.identifyDataSources: per-source keyword lists in object
order; when none matches the sentinel list containing only the string
all. -/
def identifyDataSources (query : String) : List String :=
  let queryLower := jsToLower query
  let sourceKeywords : List (String × List String) :=
    [("shopify", ["product", "order", "customer", "inventory", "shopify"]),
     ("stripe", ["payment", "subscription", "revenue", "transaction", "stripe"]),
     ("google-analytics", ["traffic", "visitor", "pageview", "conversion", "analytics"]),
     ("salesforce", ["lead", "opportunity", "account", "contact", "salesforce"])]
  let dataSources := sourceKeywords.filterMap (fun p =>
    if p.2.any (fun kw => strContains queryLower kw) then some p.1 else none)
  if dataSources.isEmpty then ["all"] else dataSources

/-- The three complexity levels of a processed query. -/
inductive Complexity where
  | simple | moderate | complex
deriving Repr, DecidableEq

/-- NLPEngine.assessComplexity: the additive score of the source,
thresholded at 1 and 3. -/
def assessComplexity (intent : QueryIntent) (entities : List QueryEntity)
    (dataSources : List String) : Complexity :=
  let c1 : Nat := if 1 < dataSources.length then 2 else 0
  let c2 : Nat := c1 + (if 3 < entities.length then 1 else 0)
  let c3 : Nat := c2 + (if intent = .compare ∨ intent = .predict then 2 else 0)
  if c3 ≤ 1 then .simple else if c3 ≤ 3 then .moderate else .complex

/-- The complexity rule as worded in the specification, as a function of
the candidate-source count, the entity count and the intent alone.  This
definition follows the words of the spec and exists only to be compared
with assessComplexity, which is translated from the source. -/
def specComplexity (nSources nEntities : Nat) (intent : QueryIntent) : Complexity :=
  let score : Nat :=
    (if 1 < nSources then 2 else 0) +
    (if 3 < nEntities then 1 else 0) +
    (if intent = .compare ∨ intent = .predict then 2 else 0)
  if score ≤ 1 then .simple else if score ≤ 3 then .moderate else .complex

/-- The structured query produced by NLPEngine.processQuery (interface
ProcessedQuery), restricted to the fields consumed by the embedded
operations: the original text, the intent, the extracted entities and the
candidate data sources.  (Its operations, timeRange and complexity fields
are carried by no claim-relevant consumer.) -/
structure ProcessedQuery where
  originalQuery : String
  intent : QueryIntent
  entities : List QueryEntity
  dataSources : List String
deriving Repr, DecidableEq

/-- The six insight kinds of type InsightType. -/
inductive InsightType where
  | trend | anomaly | correlation | prediction | recommendation | alert
deriving Repr, DecidableEq

/-- A generated business insight (interface BusinessInsight): kind,
fixed texts, fixed confidence (in tenths, as for QueryEntity: the source
constants 0.7, 0.6, 0.8 are the model values 7, 6, 8), optional data echo
and optional recommendation list. -/
structure BInsight (ρ : Type) where
  type : InsightType
  title : String
  description : String
  confidence : Nat
  data : Option (List ρ) := none
  recommendations : Option (List String) := none
deriving Repr, DecidableEq

/-- The aggregated-result shape consumed by the insight generators: a
record array that may be absent (interface-free JS access to
results.data). -/
structure Payload (ρ : Type) where
  data : Option (List ρ)
deriving Repr, DecidableEq

/-- NLPEngine.isTrendQuery. -/
def isTrendQuery (pq : ProcessedQuery) : Bool :=
  decide (pq.intent = .trend) || pq.entities.any (fun e => e.type = "time_range")

/-- NLPEngine.isCorrelationQuery: intent compare, or more than one
candidate data source. -/
def isCorrelationQuery (pq : ProcessedQuery) : Bool :=
  decide (pq.intent = .compare) || decide (1 < pq.dataSources.length)

/-- NLPEngine.generateTrendInsight: null unless at least two records. -/
def generateTrendInsight {ρ : Type} (results : Payload ρ) (_pq : ProcessedQuery) :
    Option (BInsight ρ) :=
  match results.data with
  | none => none
  | some d =>
    if d.length < 2 then none
    else some { type := .trend, title := "Trend Analysis",
                description := "Data shows a consistent pattern over the selected time period.",
                confidence := 7, data := some d }

/-- NLPEngine.generateCorrelationInsight: null when fewer than two
candidate data sources. -/
def generateCorrelationInsight {ρ : Type} (results : Payload ρ) (pq : ProcessedQuery) :
    Option (BInsight ρ) :=
  if pq.dataSources.length < 2 then none
  else some { type := .correlation, title := "Cross-Platform Correlation",
              description := "Data from multiple sources shows interesting relationships.",
              confidence := 6, data := results.data }

/-- NLPEngine.generateAnomalyInsight: always produced. -/
def generateAnomalyInsight {ρ : Type} (_results : Payload ρ) (_pq : ProcessedQuery) :
    Option (BInsight ρ) :=
  some { type := .anomaly, title := "Data Quality Check",
         description := "No significant anomalies detected in the data.",
         confidence := 8 }

/-- NLPEngine.generateRecommendations: one fixed recommendation insight
for retrieve queries with non-empty data. -/
def generateRecommendations {ρ : Type} (results : Payload ρ) (pq : ProcessedQuery) :
    List (BInsight ρ) :=
  if pq.intent = .retrieve ∧ 0 < (results.data.getD []).length then
    [{ type := .recommendation, title := "Next Steps",
       description := "Consider analyzing trends or comparing with other time periods.",
       confidence := 7,
       recommendations := some
         ["Try asking about trends over time",
          "Compare with previous periods",
          "Look for correlations with other metrics"] }]
  else []

/-- NLPEngine.generateInsights: trend insight when the query is a trend
query and the generator fires, correlation insight likewise, the anomaly
insight always, then the recommendations. -/
def generateInsights {ρ : Type} (results : Payload ρ) (pq : ProcessedQuery) :
    List (BInsight ρ) :=
  (if isTrendQuery pq then (generateTrendInsight results pq).toList else []) ++
  (if isCorrelationQuery pq then (generateCorrelationInsight results pq).toList else []) ++
  (generateAnomalyInsight results pq).toList ++
  generateRecommendations results pq

/-! ### DataConnectorManager (src/core/DataConnectorManager.ts) -/

deriving instance DecidableEq for Except

/-- A registered connector, reduced to the behaviour the manager
observes: its type string (connector.getType) and the result of awaiting
its executeQuery call, which either yields a payload or throws an error
message. -/
structure Connector (π : Type) where
  type : String
  exec : Except String π
deriving Repr, DecidableEq

/-- Whether a connector call failed (threw or rejected). -/
def execFailed {π : Type} (c : Connector π) : Bool :=
  match c.exec with
  | .ok _ => false
  | .error _ => true

/-- One element of the responses array of
DataConnectorManager.executeQuery: source type, success flag, and the
payload or the error message. -/
structure FanResponse (π : Type) where
  type : String
  success : Bool
  data : Option π
  error : Option String
deriving Repr, DecidableEq

/-- The try-catch wrapper around one connector call inside
DataConnectorManager.executeQuery: a successful call becomes a success
response carrying the payload, a thrown or rejected call becomes a
failure response carrying the message. -/
def wrapCall {π : Type} (c : Connector π) : FanResponse π :=
  match c.exec with
  | .ok r => ⟨c.type, true, some r, none⟩
  | .error e => ⟨c.type, false, none, some e⟩

/-- The Promise.all fan-out of DataConnectorManager.executeQuery: every
selected connector contributes exactly one wrapped outcome, in selection
order. -/
def fanOut {π : Type} (connectors : List (Connector π)) : List (FanResponse π) :=
  connectors.map wrapCall

/-- The result-collection loop of DataConnectorManager.executeQuery: the
payloads of the successful responses, in order (failed responses are only
logged). -/
def selectSuccessData {π : Type} (responses : List (FanResponse π)) : List π :=
  responses.filterMap (fun r => if r.success then r.data else none)

/-- DataConnectorManager.getRelevantTerms: the fixed per-source term
lists, with the bare connector type as fallback. -/
def getRelevantTerms (connectorType : String) : List String :=
  if connectorType = "shopify" then
    ["product", "order", "customer", "inventory", "sales", "shopify"]
  else if connectorType = "stripe" then
    ["payment", "subscription", "revenue", "transaction", "stripe"]
  else if connectorType = "google-analytics" then
    ["traffic", "visitor", "pageview", "conversion", "analytics"]
  else if connectorType = "salesforce" then
    ["lead", "opportunity", "account", "contact", "salesforce"]
  else [connectorType]

/-- DataConnectorManager.isConnectorRelevant: the lower-cased original
query text contains some term of the lower-cased connector type. -/
def isConnectorRelevant (connectorType : String) (pq : ProcessedQuery) : Bool :=
  let queryText := jsToLower pq.originalQuery
  (getRelevantTerms (jsToLower connectorType)).any (fun term => strContains queryText term)

/-- DataConnectorManager.getRelevantConnectors: the registered connectors
relevant to the query, in registration order. -/
def getRelevantConnectors {π : Type} (registered : List (Connector π)) (pq : ProcessedQuery) :
    List (Connector π) :=
  registered.filter (fun c => isConnectorRelevant c.type pq)

/-- The three output shapes of DataConnectorManager.combineResults: the
empty aggregate (a record with data the empty array and summary
totalRecords 0), the single successful payload passed through unchanged,
and the multi-source combination (concatenated record arrays,
totalRecords the sum of the per-source counts, sources the number of
successful results). -/
inductive AggregatedResult (ρ : Type) where
  | empty (data : List ρ) (totalRecords : Nat)
  | passthrough (p : Payload ρ)
  | combined (data : List ρ) (totalRecords : Nat) (sources : Nat)
deriving Repr, DecidableEq

/-- DataConnectorManager.combineResults on the successful payloads.  A
payload whose data field is not an array contributes nothing to the
multi-source combination. -/
def combineResults {ρ : Type} (results : List (Payload ρ)) : AggregatedResult ρ :=
  match results with
  | [] => .empty [] 0
  | [r] => .passthrough r
  | rs =>
    .combined (rs.flatMap (fun r => r.data.getD []))
      (rs.foldl (fun acc r => acc + (r.data.getD []).length) 0)
      rs.length

/-- DataConnectorManager.executeQuery end to end: select the relevant
connectors, fan out over all of them, keep the successful payloads and
combine. -/
def executeQuery {ρ : Type} (registered : List (Connector (Payload ρ)))
    (pq : ProcessedQuery) : AggregatedResult ρ :=
  combineResults (selectSuccessData (fanOut (getRelevantConnectors registered pq)))

/-! ### Cache key generation (src/core/ConversaSDK.ts) -/

/-- The base64 alphabet in index order. -/
def b64Alphabet : List Char :=
  "ABCDEFGHIJKLMNOPQRSTUVWXYZabcdefghijklmnopqrstuvwxyz0123456789+/".data

/-- The base64 digit for a 6-bit value. -/
def b64Char (n : Nat) : Char :=
  b64Alphabet.getD n 'A'

/-- JS btoa on a binary string given as its byte values: standard base64
with padding, three bytes to four digits, big-endian bit order. -/
def btoa : List Nat → List Char
  | [] => []
  | [b1] => [b64Char (b1 / 4), b64Char (b1 % 4 * 16), '=', '=']
  | [b1, b2] =>
    [b64Char (b1 / 4), b64Char (b1 % 4 * 16 + b2 / 16), b64Char (b2 % 16 * 4), '=']
  | b1 :: b2 :: b3 :: rest =>
    b64Char (b1 / 4) :: b64Char (b1 % 4 * 16 + b2 / 16) ::
      b64Char (b2 % 16 * 4 + b3 / 64) :: b64Char (b3 % 64) :: btoa rest

/-- The regex replace of generateCacheKey: drop every character outside
a-z, A-Z, 0-9 (in particular the base64 digits plus, slash and the
padding equals sign). -/
def stripNonAlnum (cs : List Char) : List Char :=
  cs.filter (fun c => c.isAlpha || c.isDigit)

/-- One character of JSON.stringify string escaping, on byte values:
quote and backslash are backslash-escaped, the named control characters
get two-character escapes, other control bytes get a six-character
unicode escape, everything else stands for itself. -/
def escapeByte (b : Nat) : List Nat :=
  if b = 0x22 then [0x5C, 0x22]
  else if b = 0x5C then [0x5C, 0x5C]
  else if b = 0x08 then [0x5C, 0x62]
  else if b = 0x09 then [0x5C, 0x74]
  else if b = 0x0A then [0x5C, 0x6E]
  else if b = 0x0C then [0x5C, 0x66]
  else if b = 0x0D then [0x5C, 0x72]
  else if b < 0x20 then
    [0x5C, 0x75, 0x30, 0x30,
     (if b / 16 < 10 then 48 + b / 16 else 87 + b / 16),
     (if b % 16 < 10 then 48 + b % 16 else 87 + b % 16)]
  else [b]

/-- JSON.stringify of a string value given as byte values: surrounding
quotes plus character escaping. -/
def jsonStringifyBytes (bytes : List Nat) : List Nat :=
  0x22 :: (bytes.flatMap escapeByte ++ [0x22])

/-- ConversaSDK.generateCacheKey.  The query and the context are JS
strings, modelled as their byte values (btoa is defined on code points up
to 255); the context argument models both the optional parameter and JS
truthiness, under which an absent context and an empty-string context
both produce the empty context hash. -/
def generateCacheKey (query : List Nat) (context : Option (List Nat)) : List Char :=
  let queryHash := stripNonAlnum (btoa query)
  let contextHash :=
    match context with
    | none => []
    | some c => if c.isEmpty then [] else stripNonAlnum (btoa (jsonStringifyBytes c))
  "query_".data ++ queryHash ++ "_".data ++ contextHash

/-- Whether an insight list carries a correlation insight. -/
def hasCorrelationInsight {ρ : Type} (insights : List (BInsight ρ)) : Bool :=
  insights.any (fun i => decide (i.type = InsightType.correlation))

/-! ### Concrete states and queries used by the theorems below -/

/-- A cache manager configured (via setMaxSize) to hold at most two
entries, starting empty. -/
def smallCache : CacheManager Nat := ⟨[], true, 300000, 2⟩

/-- A full two-entry cache in which both entries were last accessed at
clock value 5. -/
def c4TieCache : CacheManager Nat :=
  ⟨[("a", ⟨1, 300000, 5, "a"⟩), ("b", ⟨2, 300000, 5, "b"⟩)], true, 300000, 2⟩

/-- The LRU scenario of the specification on a capacity-2 cache with a
strictly increasing clock: write A at 0, write B at 1, read A at 2,
write C at 3. -/
def lruScenarioFinal : CacheManager Nat :=
  (((((CacheManager.mk [] true 300000 2).set 0 "A" 1 none).set 1 "B" 2 none).get 2
    "A").2).set 3 "C" 3 none

/-- A full two-entry cache whose entries were last accessed strictly
before the clock value 50 used with it. -/
def liveCache : CacheManager Nat :=
  ⟨[("k", ⟨7, 100, 0, "k"⟩), ("j", ⟨8, 100, 4, "j"⟩)], true, 300000, 2⟩

/-- A cache holding one expired and one live entry at clock value 11. -/
def expiredCache : CacheManager Nat :=
  ⟨[("x", ⟨5, 10, 0, "x"⟩), ("y", ⟨6, 999, 0, "y"⟩)], true, 300000, 1000⟩

/-- Two registered connectors that both throw. -/
def failingConnectors : List (Connector (Payload Nat)) :=
  [⟨"shopify", .error "boom"⟩, ⟨"stripe", .error "down"⟩]

/-- A processed query whose text makes both of the above connectors
relevant. -/
def salesPaymentQuery : ProcessedQuery :=
  ⟨"sales and payment data", .retrieve, [], ["shopify", "stripe"]⟩

/-- All four connectors with fixed relevance-term lists registered. -/
def routerRegistered : List (Connector (Payload Nat)) :=
  [⟨"shopify", .ok ⟨some []⟩⟩, ⟨"stripe", .ok ⟨some []⟩⟩,
   ⟨"google-analytics", .ok ⟨some []⟩⟩, ⟨"salesforce", .ok ⟨some []⟩⟩]

/-- A query matching no source keyword, so that its candidate-source list
is the sentinel containing only the string all. -/
def allSentinelQuery : ProcessedQuery :=
  ⟨"hello there", .retrieve, [], identifyDataSources "hello there"⟩

/-- A query whose text mentions sales, making the shopify connector
relevant. -/
def salesRoutedQuery : ProcessedQuery :=
  ⟨"show sales", .retrieve, [], ["shopify"]⟩

/-- A compare-intent query with a single candidate source. -/
def compareOneSource : ProcessedQuery :=
  ⟨"compare sales", .compare, [], ["shopify"]⟩

/-- A query with two candidate sources and non-compare intent. -/
def twoSourceQuery : ProcessedQuery :=
  ⟨"sales and traffic", .retrieve, [], ["shopify", "google-analytics"]⟩

/-! ### Helper lemmas about the JS Map model -/

theorem mapGet_mapSet_self {α : Type} (l : CMap α) (k : String) (v : CEntry α) :
    mapGet (mapSet l k v) k = some v := by
  induction l with
  | nil => simp [mapSet, mapGet]
  | cons p rest ih =>
    by_cases h : p.1 = k
    · simp [mapSet, h, mapGet]
    · simp [mapSet, h, mapGet, ih]

theorem mapGet_mapDelete_self {α : Type} (l : CMap α) (k : String) :
    mapGet (mapDelete l k) k = none := by
  induction l with
  | nil => rfl
  | cons p rest ih =>
    by_cases h : p.1 = k
    · simp [mapDelete, h, ih]
    · simp [mapDelete, h, mapGet, ih]

theorem mapGet_mapDelete_other {α : Type} (l : CMap α) (k k' : String) (hne : k' ≠ k) :
    mapGet (mapDelete l k) k' = mapGet l k' := by
  induction l with
  | nil => rfl
  | cons p rest ih =>
    by_cases h : p.1 = k
    · have hp : ¬ (k = k') := fun hh => hne hh.symm
      simp [mapDelete, h, mapGet, hp, ih]
    · simp [mapDelete, h, mapGet, ih]

theorem mapGet_eq_none_of_not_mem_keys {α : Type} (l : CMap α) (k : String)
    (h : k ∉ l.map Prod.fst) : mapGet l k = none := by
  induction l with
  | nil => rfl
  | cons p rest ih =>
    simp only [List.map_cons, List.mem_cons, not_or] at h
    have hp : p.1 ≠ k := fun he => h.1 he.symm
    simp [mapGet, hp, ih h.2]

theorem mapDelete_eq_self_of_not_mem_keys {α : Type} (l : CMap α) (k : String)
    (h : k ∉ l.map Prod.fst) : mapDelete l k = l := by
  induction l with
  | nil => rfl
  | cons p rest ih =>
    simp only [List.map_cons, List.mem_cons, not_or] at h
    have hp : p.1 ≠ k := fun he => h.1 he.symm
    simp [mapDelete, hp, ih h.2]

theorem mapDelete_length {α : Type} (l : CMap α) (k : String) (e : CEntry α)
    (hmem : (k, e) ∈ l) (hnd : (l.map Prod.fst).Nodup) :
    (mapDelete l k).length + 1 = l.length := by
  induction l with
  | nil => cases hmem
  | cons p rest ih =>
    simp only [List.map_cons, List.nodup_cons] at hnd
    rcases List.mem_cons.mp hmem with he | hm
    · have hk : p.1 = k := by rw [← he]
      have hnm : k ∉ rest.map Prod.fst := hk ▸ hnd.1
      simp [mapDelete, hk, mapDelete_eq_self_of_not_mem_keys rest k hnm]
    · have hk : p.1 ≠ k := by
        intro he
        exact hnd.1 (he ▸ List.mem_map.mpr ⟨(k, e), hm, rfl⟩)
      have := ih hm hnd.2
      simp only [mapDelete, if_neg hk, List.length_cons]
      omega

theorem mapGet_filter {α : Type} (l : CMap α) (f : CEntry α → Bool) (k : String)
    (hnd : (l.map Prod.fst).Nodup) :
    mapGet (l.filter (fun p => f p.2)) k =
      match mapGet l k with
      | none => none
      | some e => if f e then some e else none := by
  induction l with
  | nil => rfl
  | cons p rest ih =>
    simp only [List.map_cons, List.nodup_cons] at hnd
    by_cases hk : p.1 = k
    · by_cases hf : f p.2
      · simp [List.filter_cons, hf, mapGet, hk]
      · have hnm : mapGet (rest.filter (fun p => f p.2)) k = none := by
          rw [ih hnd.2, mapGet_eq_none_of_not_mem_keys rest k (hk ▸ hnd.1)]
        simp [List.filter_cons, hf, mapGet, hk, hnm]
    · by_cases hf : f p.2 <;> simp [List.filter_cons, hf, mapGet, hk, ih hnd.2]

/-! ### Helper lemmas about the LRU fold -/

theorem foldl_lruStep_snd_le {α : Type} (l : CMap α) (acc : String × Nat) :
    (l.foldl lruStep acc).2 ≤ acc.2 := by
  induction l generalizing acc with
  | nil => exact le_rfl
  | cons p rest ih =>
    simp only [List.foldl_cons]
    refine le_trans (ih (lruStep acc p)) ?_
    unfold lruStep
    split
    · exact le_of_lt (by assumption)
    · exact le_rfl

theorem foldl_lruStep_le_mem {α : Type} (l : CMap α) (acc : String × Nat) :
    ∀ p ∈ l, (l.foldl lruStep acc).2 ≤ p.2.lastAccessed := by
  induction l generalizing acc with
  | nil => intro p hp; cases hp
  | cons q rest ih =>
    intro p hp
    simp only [List.foldl_cons]
    rcases List.mem_cons.mp hp with rfl | hp
    · refine le_trans (foldl_lruStep_snd_le rest (lruStep acc p)) ?_
      unfold lruStep
      split
      · exact le_rfl
      · exact Nat.le_of_not_lt (by assumption)
    · exact ih (lruStep acc q) p hp

theorem foldl_lruStep_choice {α : Type} (l : CMap α) (acc : String × Nat) :
    l.foldl lruStep acc = acc ∨ ∃ p ∈ l, l.foldl lruStep acc = (p.1, p.2.lastAccessed) := by
  induction l generalizing acc with
  | nil => exact Or.inl rfl
  | cons q rest ih =>
    simp only [List.foldl_cons]
    rcases ih (lruStep acc q) with h | ⟨p, hp, h⟩
    · rw [h]
      unfold lruStep
      split
      · exact Or.inr ⟨q, List.mem_cons_self q rest, rfl⟩
      · exact Or.inl rfl
    · exact Or.inr ⟨p, List.mem_cons_of_mem q hp, h⟩

/-- When some entry was last accessed strictly before the current clock
and every key is non-empty, evictLRU on a duplicate-free map removes
exactly one entry, and one whose lastAccessed is minimal. -/
theorem evictLRU_removes_min {α : Type} (m : CacheManager α) (now : Nat)
    (hlt : ∃ p ∈ m.cache, p.2.lastAccessed < now)
    (hkeys : ∀ p ∈ m.cache, p.1 ≠ "")
    (hnd : (m.cache.map Prod.fst).Nodup) :
    ∃ k e, (k, e) ∈ m.cache ∧
      (∀ p ∈ m.cache, e.lastAccessed ≤ p.2.lastAccessed) ∧
      (m.evictLRU now).cache = mapDelete m.cache k ∧
      (m.evictLRU now).cache.length + 1 = m.cache.length := by
  obtain ⟨p0, hp0, hp0lt⟩ := hlt
  have hne : m.cache.isEmpty = false := by
    cases hc : m.cache with
    | nil => rw [hc] at hp0; cases hp0
    | cons a l => rfl
  have hrlt : (m.cache.foldl lruStep ("", now)).2 < now :=
    lt_of_le_of_lt (foldl_lruStep_le_mem m.cache ("", now) p0 hp0) hp0lt
  rcases foldl_lruStep_choice m.cache ("", now) with hacc | ⟨p, hp, hpr⟩
  · rw [hacc] at hrlt
    exact absurd hrlt (lt_irrefl now)
  · have hkeyp : p.1 ≠ "" := hkeys p hp
    have hev : m.evictLRU now = { m with cache := mapDelete m.cache p.1 } := by
      unfold CacheManager.evictLRU
      rw [hne]
      simp only [Bool.false_eq_true, if_false, hpr, if_neg hkeyp]
    refine ⟨p.1, p.2, by rw [Prod.mk.eta]; exact hp, ?_, ?_, ?_⟩
    · intro q hq
      have := foldl_lruStep_le_mem m.cache ("", now) q hq
      rw [hpr] at this
      exact this
    · rw [hev]
    · rw [hev]
      exact mapDelete_length m.cache p.1 p.2 (by rw [Prod.mk.eta]; exact hp) hnd

/-! ### Helper lemmas about the fan-out -/

theorem wrapCall_type {π : Type} (c : Connector π) : (wrapCall c).type = c.type := by
  unfold wrapCall
  cases c.exec <;> rfl

theorem selectSuccessData_fanOut_eq_nil {π : Type} (l : List (Connector π))
    (h : ∀ c ∈ l, execFailed c = true) :
    selectSuccessData (fanOut l) = [] := by
  induction l with
  | nil => rfl
  | cons c rest ih =>
    have hc := h c (List.mem_cons_self c rest)
    have hr : ∀ d ∈ rest, execFailed d = true := fun d hd => h d (List.mem_cons_of_mem c hd)
    unfold execFailed at hc
    cases hex : c.exec with
    | ok v => rw [hex] at hc; cases hc
    | error e =>
      have hw : wrapCall c = ⟨c.type, false, none, some e⟩ := by
        unfold wrapCall; rw [hex]
      simp only [fanOut, List.map_cons, selectSuccessData, List.filterMap_cons, hw]
      exact ih hr

/-! ### Helper lemmas about insight synthesis -/

theorem trendPart_no_correlation {ρ : Type} (results : Payload ρ) (pq : ProcessedQuery) :
    ((if isTrendQuery pq then (generateTrendInsight results pq).toList else []).any
      (fun i => decide (i.type = InsightType.correlation))) = false := by
  split
  · unfold generateTrendInsight
    cases results.data with
    | none => rfl
    | some d => by_cases hd : d.length < 2 <;> simp [hd]
  · rfl

theorem anomalyPart_no_correlation {ρ : Type} (results : Payload ρ) (pq : ProcessedQuery) :
    ((generateAnomalyInsight results pq).toList.any
      (fun i => decide (i.type = InsightType.correlation))) = false := rfl

theorem recPart_no_correlation {ρ : Type} (results : Payload ρ) (pq : ProcessedQuery) :
    ((generateRecommendations results pq).any
      (fun i => decide (i.type = InsightType.correlation))) = false := by
  unfold generateRecommendations
  split <;> rfl

theorem corrPart_iff {ρ : Type} (results : Payload ρ) (pq : ProcessedQuery) :
    ((if isCorrelationQuery pq then (generateCorrelationInsight results pq).toList else []).any
      (fun i => decide (i.type = InsightType.correlation))) = true ↔
      2 ≤ pq.dataSources.length := by
  by_cases h2 : 2 ≤ pq.dataSources.length
  · have h1 : 1 < pq.dataSources.length := h2
    have hq : isCorrelationQuery pq = true := by
      unfold isCorrelationQuery
      simp [h1]
    have hg : ¬ pq.dataSources.length < 2 := Nat.not_lt.mpr h2
    unfold generateCorrelationInsight
    simp [hq, hg, h2]
  · have hlt : pq.dataSources.length < 2 := Nat.not_le.mp h2
    have hg : generateCorrelationInsight results pq = none := by
      unfold generateCorrelationInsight
      rw [if_pos hlt]
    simp [hg, h2]

/-! ### The claims -/

/-- Claim C1 (code bug).  The specification states that the entry count
never exceeds the configured maximum (default 1000) because a set on a
full cache first evicts the least-recently-accessed entry.  The code
violates this: evictLRU initialises its running minimum to the current
clock value and compares strictly, so when every entry was last accessed
at the current clock tick nothing is evicted, yet set inserts anyway.
With the maximum configured to 2, three inserts of distinct keys at the
same clock value leave three entries in the cache. -/
theorem c1_capacity_overflow :
    (CacheManager.init true 300000 : CacheManager Nat).maxSize = 1000 ∧
    smallCache.maxSize = 2 ∧
    (((smallCache.set 0 "a" 1 none).set 0 "b" 2 none).set 0 "c" 3
      none).cache.length = 3 := by decide

/-- Claim C2 (confirmed).  The fan-out produces exactly one outcome per
selected adapter, in order and carrying its source type; a throwing call
becomes an outcome with success false carrying the message instead of
aborting the batch; and when every selected adapter fails the aggregated
result is still the well-formed empty result, with an empty record array
and totalRecords 0. -/
theorem c2_fanout_isolation :
    (∀ (ρ : Type) (registered : List (Connector (Payload ρ))) (pq : ProcessedQuery),
      (fanOut (getRelevantConnectors registered pq)).length =
          (getRelevantConnectors registered pq).length ∧
        (fanOut (getRelevantConnectors registered pq)).map FanResponse.type =
          (getRelevantConnectors registered pq).map Connector.type) ∧
    (∀ (ρ : Type) (c : Connector (Payload ρ)) (e : String),
      c.exec = Except.error e →
        wrapCall c = ⟨c.type, false, none, some e⟩) ∧
    (∀ (ρ : Type) (registered : List (Connector (Payload ρ))) (pq : ProcessedQuery),
      (∀ c ∈ getRelevantConnectors registered pq, execFailed c = true) →
        executeQuery registered pq = .empty [] 0) := by
  refine ⟨?_, ?_, ?_⟩
  · intro ρ registered pq
    constructor
    · simp [fanOut]
    · simp [fanOut, List.map_map, Function.comp, wrapCall_type]
  · intro ρ c e h
    unfold wrapCall
    rw [h]
  · intro ρ registered pq h
    unfold executeQuery
    rw [selectSuccessData_fanOut_eq_nil _ h]
    rfl

theorem c2_fanout_isolation_witness :
    (fanOut (getRelevantConnectors failingConnectors salesPaymentQuery)).length =
      (getRelevantConnectors failingConnectors salesPaymentQuery).length ∧
    wrapCall (⟨"shopify", Except.error "boom"⟩ : Connector (Payload Nat)) =
      ⟨"shopify", false, none, some "boom"⟩ ∧
    executeQuery failingConnectors salesPaymentQuery = .empty [] 0 :=
  ⟨(c2_fanout_isolation.1 Nat failingConnectors salesPaymentQuery).1,
   c2_fanout_isolation.2.1 Nat ⟨"shopify", Except.error "boom"⟩ "boom" rfl,
   c2_fanout_isolation.2.2 Nat failingConnectors salesPaymentQuery (by decide)⟩

/-- Claim C3 (confirmed).  A get on an entry strictly past its expiry
deletes exactly that entry and returns absent, leaving every other key
untouched; expired entries are swept only by the explicit cleanup
operation, which removes exactly the expired bindings; and concretely an
entry written with TTL 1000 at clock 0 and read at clock 1001 returns
absent and leaves the cache empty. -/
theorem c3_lazy_expiry :
    (∀ (α : Type) (m : CacheManager α) (now : Nat) (k : String) (e : CEntry α),
      m.enabled = true → mapGet m.cache k = some e → e.expiresAt < now →
        (m.get now k).1 = none ∧
        (m.get now k).2.cache = mapDelete m.cache k ∧
        mapGet (m.get now k).2.cache k = none ∧
        ∀ k', k' ≠ k → mapGet (m.get now k).2.cache k' = mapGet m.cache k') ∧
    (∀ (α : Type) (m : CacheManager α) (now : Nat) (k : String),
      (m.cache.map Prod.fst).Nodup →
        mapGet (m.cleanup now).cache k =
          match mapGet m.cache k with
          | none => none
          | some e => if e.expiresAt < now then none else some e) ∧
    ((((CacheManager.init true 300000 : CacheManager Nat).set 0 "q" 42 (some 1000)).get 1001
        "q").1 = none ∧
      (((CacheManager.init true 300000 : CacheManager Nat).set 0 "q" 42 (some 1000)).get 1001
        "q").2.cache = []) := by
  refine ⟨?_, ?_, by decide⟩
  · intro α m now k e hen hget hexp
    have hm : m.get now k = (none, { m with cache := mapDelete m.cache k }) := by
      simp [CacheManager.get, hen, hget, hexp]
    refine ⟨by rw [hm], by rw [hm], ?_, ?_⟩
    · rw [hm]
      exact mapGet_mapDelete_self m.cache k
    · intro k' hk'
      rw [hm]
      exact mapGet_mapDelete_other m.cache k k' hk'
  · intro α m now k hnd
    unfold CacheManager.cleanup
    rw [mapGet_filter m.cache (fun e => ! decide (e.expiresAt < now)) k hnd]
    cases hg : mapGet m.cache k with
    | none => rfl
    | some e => by_cases he : e.expiresAt < now <;> simp [he]

theorem c3_lazy_expiry_witness :
    (expiredCache.get 11 "x").1 = none ∧
    mapGet (expiredCache.get 11 "x").2.cache "y" = mapGet expiredCache.cache "y" ∧
    mapGet (expiredCache.cleanup 11).cache "x" = none ∧
    mapGet (expiredCache.cleanup 11).cache "y" = some ⟨6, 999, 0, "y"⟩ :=
  ⟨(c3_lazy_expiry.1 Nat expiredCache 11 "x" ⟨5, 10, 0, "x"⟩ rfl (by decide) (by decide)).1,
   (c3_lazy_expiry.1 Nat expiredCache 11 "x" ⟨5, 10, 0, "x"⟩ rfl (by decide)
      (by decide)).2.2.2 "y" (by decide),
   by rw [c3_lazy_expiry.2.1 Nat expiredCache 11 "x" (by decide)]; decide,
   by rw [c3_lazy_expiry.2.1 Nat expiredCache 11 "y" (by decide)]; decide⟩

/-- Claim C4, counterexample.  A set on a full capacity-2 cache in which
both entries were last accessed exactly at the current clock value
triggers eviction but removes nothing: both old entries survive next to
the new one, so capacity-triggered eviction does not always remove an
entry with minimal lastAccessedAt. -/
theorem c4_tie_eviction_cex :
    c4TieCache.maxSize = 2 ∧
    c4TieCache.cache.length = 2 ∧
    (c4TieCache.set 5 "c" 3 none).cache.length = 3 ∧
    mapGet (c4TieCache.set 5 "c" 3 none).cache "a" = some ⟨1, 300000, 5, "a"⟩ ∧
    mapGet (c4TieCache.set 5 "c" 3 none).cache "b" = some ⟨2, 300000, 5, "b"⟩ := by decide

/-- Claim C4 as amended.  A cache hit returns the stored value and
updates the lastAccessedAt of the entry to the current clock; capacity-
triggered eviction removes an entry with minimal lastAccessedAt provided
some entry was last accessed strictly before the current clock (and keys
are non-empty and duplicate-free); and on a capacity-2 cache with a
strictly increasing clock, writing A then B, reading A, then writing C
evicts B and keeps A and C. -/
theorem c4_lru_amended :
    (∀ (α : Type) (m : CacheManager α) (now : Nat) (k : String) (e : CEntry α),
      m.enabled = true → mapGet m.cache k = some e → ¬ e.expiresAt < now →
        (m.get now k).1 = some e.data ∧
        mapGet (m.get now k).2.cache k = some { e with lastAccessed := now }) ∧
    (∀ (α : Type) (m : CacheManager α) (now : Nat),
      (∃ p ∈ m.cache, p.2.lastAccessed < now) →
      (∀ p ∈ m.cache, p.1 ≠ "") →
      (m.cache.map Prod.fst).Nodup →
        ∃ k e, (k, e) ∈ m.cache ∧
          (∀ p ∈ m.cache, e.lastAccessed ≤ p.2.lastAccessed) ∧
          (m.evictLRU now).cache = mapDelete m.cache k ∧
          (m.evictLRU now).cache.length + 1 = m.cache.length) ∧
    (mapGet lruScenarioFinal.cache "B" = none ∧
      mapGet lruScenarioFinal.cache "A" = some ⟨1, 300000, 2, "A"⟩ ∧
      mapGet lruScenarioFinal.cache "C" = some ⟨3, 300003, 3, "C"⟩ ∧
      lruScenarioFinal.cache.length = 2) := by
  refine ⟨?_, ?_, by decide⟩
  · intro α m now k e hen hget hexp
    have hm : m.get now k =
        (some e.data, { m with cache := mapSet m.cache k { e with lastAccessed := now } }) := by
      simp [CacheManager.get, hen, hget, hexp]
    refine ⟨by rw [hm], ?_⟩
    rw [hm]
    exact mapGet_mapSet_self m.cache k { e with lastAccessed := now }
  · intro α m now hlt hkeys hnd
    exact evictLRU_removes_min m now hlt hkeys hnd

theorem c4_lru_amended_witness :
    (liveCache.get 50 "k").1 = some 7 ∧
    mapGet (liveCache.get 50 "k").2.cache "k" = some ⟨7, 100, 50, "k"⟩ ∧
    (∃ k e, (k, e) ∈ liveCache.cache ∧
      (∀ p ∈ liveCache.cache, e.lastAccessed ≤ p.2.lastAccessed) ∧
      (liveCache.evictLRU 50).cache = mapDelete liveCache.cache k ∧
      (liveCache.evictLRU 50).cache.length + 1 = liveCache.cache.length) :=
  ⟨(c4_lru_amended.1 Nat liveCache 50 "k" ⟨7, 100, 0, "k"⟩ rfl (by decide) (by decide)).1,
   (c4_lru_amended.1 Nat liveCache 50 "k" ⟨7, 100, 0, "k"⟩ rfl (by decide) (by decide)).2,
   c4_lru_amended.2.1 Nat liveCache 50 (by decide) (by decide) (by decide)⟩

/-- Claim C5, counterexample.  Two distinct context strings produce the
same cache key for the same query text: stripping the non-alphanumeric
base64 digits conflates serialisations that differ only in plus, slash
or padding characters. -/
theorem c5_key_collision :
    ([0xFF, 0x80, 0x41] : List Nat) ≠ [0xF0, 0x3E, 0x41] ∧
    generateCacheKey [115, 97, 108, 101, 115] (some [0xFF, 0x80, 0x41]) =
      generateCacheKey [115, 97, 108, 101, 115] (some [0xF0, 0x3E, 0x41]) := by decide

/-- Claim C5 as amended.  The cache key function is deterministic:
identical query text and identical context yield an identical key. -/
theorem c5_deterministic :
    ∀ (q₁ q₂ : List Nat) (c₁ c₂ : Option (List Nat)),
      q₁ = q₂ → c₁ = c₂ → generateCacheKey q₁ c₁ = generateCacheKey q₂ c₂ := by
  intro q₁ q₂ c₁ c₂ hq hc
  rw [hq, hc]

theorem c5_deterministic_witness :
    generateCacheKey [115] none = generateCacheKey [115] none :=
  c5_deterministic [115] [115] none none rfl rfl

/-- Claim C6 (confirmed).  Intent classification tests the lower-cased
text against the keyword sets in the fixed priority order retrieve,
compare, trend, explain, predict; the first matching category wins,
retrieve is the default, and the text (What is the trend in sales?)
classifies as retrieve because the retrieve keywords are tested first. -/
theorem c6_intent_priority :
    extractIntent "What is the trend in sales?" = QueryIntent.retrieve ∧
    ∀ q : String,
      (matchesPattern (jsToLower q) ["what", "show", "list", "get"] = true →
        extractIntent q = .retrieve) ∧
      (matchesPattern (jsToLower q) ["what", "show", "list", "get"] = false →
        matchesPattern (jsToLower q) ["compare", "vs", "versus", "difference"] = true →
        extractIntent q = .compare) ∧
      (matchesPattern (jsToLower q) ["what", "show", "list", "get"] = false →
        matchesPattern (jsToLower q) ["compare", "vs", "versus", "difference"] = false →
        matchesPattern (jsToLower q) ["trend", "over time", "growth", "change"] = true →
        extractIntent q = .trend) ∧
      (matchesPattern (jsToLower q) ["what", "show", "list", "get"] = false →
        matchesPattern (jsToLower q) ["compare", "vs", "versus", "difference"] = false →
        matchesPattern (jsToLower q) ["trend", "over time", "growth", "change"] = false →
        matchesPattern (jsToLower q) ["why", "reason", "cause", "because"] = true →
        extractIntent q = .explain) ∧
      (matchesPattern (jsToLower q) ["what", "show", "list", "get"] = false →
        matchesPattern (jsToLower q) ["compare", "vs", "versus", "difference"] = false →
        matchesPattern (jsToLower q) ["trend", "over time", "growth", "change"] = false →
        matchesPattern (jsToLower q) ["why", "reason", "cause", "because"] = false →
        matchesPattern (jsToLower q) ["predict", "forecast", "future", "next"] = true →
        extractIntent q = .predict) ∧
      (matchesPattern (jsToLower q) ["what", "show", "list", "get"] = false →
        matchesPattern (jsToLower q) ["compare", "vs", "versus", "difference"] = false →
        matchesPattern (jsToLower q) ["trend", "over time", "growth", "change"] = false →
        matchesPattern (jsToLower q) ["why", "reason", "cause", "because"] = false →
        matchesPattern (jsToLower q) ["predict", "forecast", "future", "next"] = false →
        extractIntent q = .retrieve) := by
  refine ⟨by decide, fun q => ?_⟩
  refine ⟨fun h1 => ?_, fun h1 h2 => ?_, fun h1 h2 h3 => ?_, fun h1 h2 h3 h4 => ?_,
    fun h1 h2 h3 h4 h5 => ?_, fun h1 h2 h3 h4 h5 => ?_⟩
  · simp [extractIntent, h1]
  · simp [extractIntent, h1, h2]
  · simp [extractIntent, h1, h2, h3]
  · simp [extractIntent, h1, h2, h3, h4]
  · simp [extractIntent, h1, h2, h3, h4, h5]
  · simp [extractIntent, h1, h2, h3, h4, h5]

theorem c6_intent_priority_witness :
    extractIntent "show" = QueryIntent.retrieve ∧
    extractIntent "compare a and b" = QueryIntent.compare ∧
    extractIntent "zzz" = QueryIntent.retrieve :=
  ⟨(c6_intent_priority.2 "show").1 (by decide),
   (c6_intent_priority.2 "compare a and b").2.1 (by decide) (by decide),
   (c6_intent_priority.2 "zzz").2.2.2.2.2 (by decide) (by decide) (by decide) (by decide)
     (by decide)⟩

/-- Claim C7 (confirmed).  The complexity of a processed query agrees
everywhere with the specified pure function of the candidate-source
count, the entity count and the intent (score 0, plus 2 for more than one
source, plus 1 for more than three entities, plus 2 for compare or
predict intent; at most 1 simple, at most 3 moderate, else complex), and
it is always one of the three levels. -/
theorem c7_complexity_refines_spec :
    ∀ (intent : QueryIntent) (entities : List QueryEntity) (dataSources : List String),
      assessComplexity intent entities dataSources =
        specComplexity dataSources.length entities.length intent ∧
      (assessComplexity intent entities dataSources = .simple ∨
        assessComplexity intent entities dataSources = .moderate ∨
        assessComplexity intent entities dataSources = .complex) := by
  intro intent entities dataSources
  constructor
  · unfold assessComplexity specComplexity
    by_cases h1 : 1 < dataSources.length <;>
      by_cases h2 : 3 < entities.length <;>
        by_cases h3 : intent = .compare ∨ intent = .predict <;>
          simp [h1, h2, h3]
  · cases h : assessComplexity intent entities dataSources <;> simp

/-- Claim C8, counterexample.  A compare-intent query with a single
candidate source satisfies the correlation predicate of the source, yet
the synthesised insight list contains no correlation insight, because the
correlation generator returns null for fewer than two sources.  The
claimed equivalence (correlation insight iff intent compare or more than
one source) therefore fails. -/
theorem c8_compare_without_correlation :
    compareOneSource.intent = QueryIntent.compare ∧
    compareOneSource.dataSources.length = 1 ∧
    isCorrelationQuery compareOneSource = true ∧
    hasCorrelationInsight
      (generateInsights (⟨some [1, 2]⟩ : Payload Nat) compareOneSource) = false := by decide

/-- Claim C8 as amended.  A correlation insight is produced exactly when
the query has at least two candidate data sources; the intent-compare
disjunct alone never suffices, since the correlation generator returns
null below two sources. -/
theorem c8_correlation_iff :
    ∀ (ρ : Type) (results : Payload ρ) (pq : ProcessedQuery),
      hasCorrelationInsight (generateInsights results pq) = true ↔
        2 ≤ pq.dataSources.length := by
  intro ρ results pq
  unfold hasCorrelationInsight generateInsights
  simp only [List.any_append, Bool.or_eq_true]
  rw [trendPart_no_correlation, anomalyPart_no_correlation, recPart_no_correlation]
  simp only [Bool.or_false, Bool.false_eq_true, false_or, or_false]
  exact corrPart_iff results pq

theorem c8_correlation_iff_witness :
    hasCorrelationInsight
      (generateInsights (⟨some []⟩ : Payload Nat) twoSourceQuery) = true :=
  (c8_correlation_iff Nat ⟨some []⟩ twoSourceQuery).mpr (by decide)

/-- Claim C9, counterexample.  The query text revenue matches the
configured business term revenue, whose kind is metric; the claim says
such a business-term match carries confidence 0.8, but the code assigns
0.9 to every business-term match (the separate tracked-metric pass then
appends a second entity at 0.8). -/
theorem c9_metric_term_confidence_cex :
    extractEntities "revenue" none =
      [⟨"metric", "revenue", 9⟩, ⟨"metric", "revenue", 8⟩] ∧
    (9 : Nat) ≠ 8 := by decide

/-- Claim C9 as amended.  Every configured business term found in the
lower-cased text yields an entity with confidence 0.9 regardless of its
kind, every tracked-metric match yields an entity with confidence 0.8,
and matches are appended without deduplication, as the double entry for
the term sales shows. -/
theorem c9_entity_confidences :
    (∀ (q : String) (ctx : Option BusinessContext) (term kind : String),
      (term, kind) ∈ getBusinessTerms ctx →
      strContains (jsToLower q) term = true →
        (⟨kind, term, 9⟩ : QueryEntity) ∈ extractEntities q ctx) ∧
    (∀ (q : String) (ctx : Option BusinessContext) (metric : String),
      metric ∈ getMetrics ctx →
      strContains (jsToLower q) metric = true →
        (⟨"metric", metric, 8⟩ : QueryEntity) ∈ extractEntities q ctx) ∧
    extractEntities "sales" none = [⟨"metric", "sales", 9⟩, ⟨"metric", "sales", 8⟩] := by
  refine ⟨?_, ?_, by decide⟩
  · intro q ctx term kind hmem hcont
    simp only [extractEntities]
    refine List.mem_append.mpr (Or.inl (List.mem_append.mpr (Or.inl ?_)))
    exact List.mem_filterMap.mpr ⟨(term, kind), hmem, by simp [hcont]⟩
  · intro q ctx metric hmem hcont
    simp only [extractEntities]
    refine List.mem_append.mpr (Or.inl (List.mem_append.mpr (Or.inr ?_)))
    exact List.mem_filterMap.mpr ⟨metric, hmem, by simp [hcont]⟩

theorem c9_entity_confidences_witness :
    (⟨"entity", "product", 9⟩ : QueryEntity) ∈ extractEntities "product info" none ∧
    (⟨"metric", "conversion", 8⟩ : QueryEntity) ∈ extractEntities "conversion rate" none :=
  ⟨c9_entity_confidences.1 "product info" none "product" "entity" (by decide) (by decide),
   c9_entity_confidences.2.1 "conversion rate" none "conversion" (by decide) (by decide)⟩

/-- Claim C10 (confirmed).  A registered adapter is selected exactly when
the lower-cased original query text contains some term of its fixed
relevance-term list (with the bare lower-cased source id as fallback),
and the sentinel candidate value all does not by itself select anything:
a query matching no source keyword gets the sentinel candidate list, yet
selects none of the four registered adapters. -/
theorem c10_router_relevance :
    (∀ (registered : List (Connector (Payload Nat))) (pq : ProcessedQuery)
        (c : Connector (Payload Nat)),
      c ∈ getRelevantConnectors registered pq ↔
        c ∈ registered ∧ ∃ term ∈ getRelevantTerms (jsToLower c.type),
          strContains (jsToLower pq.originalQuery) term = true) ∧
    identifyDataSources "hello there" = ["all"] ∧
    allSentinelQuery.dataSources = ["all"] ∧
    getRelevantConnectors routerRegistered allSentinelQuery = [] := by
  refine ⟨?_, by decide, by decide, by decide⟩
  intro registered pq c
  simp [getRelevantConnectors, List.mem_filter, isConnectorRelevant, List.any_eq_true]

theorem c10_router_relevance_witness :
    (⟨"shopify", Except.ok ⟨some []⟩⟩ : Connector (Payload Nat)) ∈
      getRelevantConnectors routerRegistered salesRoutedQuery :=
  (c10_router_relevance.1 routerRegistered salesRoutedQuery
      ⟨"shopify", Except.ok ⟨some []⟩⟩).mpr
    ⟨by decide, "sales", by decide, by decide⟩

end ConversaBI
